import Mathlib

/-!
Shallow embedding of the VoluMatrix NRRD decoder (`AVMVolumeManager`).

The repository carries three near-duplicate decoder variants:

* variant A: the first half of `Source/TBRaymarchProject/Private/VMVolumeManager.cpp`
  (`ParseNRRDHeader` built on `Split`/`ParseIntList`/`LexTryParseString`, and
  `LoadRawData` whose length check only logs a warning);
* variant B: the second half of the same file (`ParseNRRDHeader` built on
  `StartsWith`/`Mid`/`Atoi`, plus `ComputeVolumeMinMaxInt16`);
* variant C: `unnamed/part_000` (`ParseNRRDHeader` plus
  `LoadRawDataAndComputeMinMax`, which pads or truncates the raw buffer to the
  expected length and computes min/max inline).

Modelling conventions:
* a string is a `List Char` (`Str`), a header file is a `List Str` of lines;
* `FString::StartsWith` and `FString::Split` default to case-insensitive
  search in Unreal Engine, and `FString::Equals` is always called with
  `ESearchCase::IgnoreCase` in this code, so both are modelled by comparison
  of lower-cased characters;
* file access is abstracted into an `Option (List Nat)` argument carrying the
  raw file's bytes when the file exists and is readable (the `FileExists` and
  `LoadFileToArray` failure paths collapse into `none`);
* `int32`/`int64` values are carried in `Int`; the one place where the 64-bit
  width of the expected-length computation is observable goes through
  `wrap64`.  `FCString::Atoi` is modelled exactly on in-range inputs;
* error message strings in the source are mapped to constructors of
  `ParseErr`/`LoadErr`, named after the spec's error taxonomy;
* `UVolumeTexture` creation, logging, path normalization and actor glue are
  outside the decoder core and are not modelled.
-/

abbrev Str := List Char

/-- Whitespace test matching `FChar::IsWhitespace` on the characters that can
occur here (space, tab, CR, LF); used by trimming and `ParseIntoArrayWS`. -/
def isWS (c : Char) : Bool := c == ' ' || c == '\t' || c == '\r' || c == '\n'

/-- Model of `FString::TrimStartAndEnd` (leading part). -/
def trimStart (s : Str) : Str := s.dropWhile isWS

/-- Model of `FString::TrimStartAndEnd` (trailing part). -/
def trimEnd : Str → Str
  | [] => []
  | a :: xs =>
    match trimEnd xs with
    | [] => if isWS a then [] else [a]
    | ys => a :: ys

/-- Model of `FString::TrimStartAndEnd`. -/
def trim (s : Str) : Str := trimEnd (trimStart s)

/-- ASCII lower-casing of one character, as used by case-insensitive FString
comparisons. -/
def lowerChar (c : Char) : Char :=
  if 65 ≤ c.toNat ∧ c.toNat ≤ 90 then Char.ofNat (c.toNat + 32) else c

/-- Model of `FString::Equals(..., ESearchCase::IgnoreCase)`. -/
def eqCI (a b : Str) : Bool := a.map lowerChar == b.map lowerChar

/-- Model of `FString::StartsWith` (whose `SearchCase` defaults to
`ESearchCase::IgnoreCase` in Unreal Engine). -/
def startsWithCI : Str → Str → Bool
  | _, [] => true
  | [], _ :: _ => false
  | a :: as, b :: bs => (lowerChar a == lowerChar b) && startsWithCI as bs

/-- Model of `FString::Split(TEXT(":"), &Key, &Value)`: split at the first
colon, `none` when there is no colon. -/
def splitFirstColon : Str → Option (Str × Str)
  | [] => none
  | c :: cs =>
    if c = ':' then some ([], cs)
    else
      match splitFirstColon cs with
      | some (l, r) => some (c :: l, r)
      | none => none

/-- Splitting a string at every delimiter character (empty pieces kept);
helper for the `ParseIntoArray` models. -/
def splitCore (p : Char → Bool) : Str → List Str
  | [] => [[]]
  | c :: cs =>
    match splitCore p cs with
    | t :: ts => if p c then [] :: t :: ts else (c :: t) :: ts
    | [] => [[]]

/-- Splitting with empty pieces culled, as `InCullEmpty = true` does. -/
def splitCull (p : Char → Bool) (s : Str) : List Str :=
  (splitCore p s).filter (fun t => !t.isEmpty)

/-- Model of `FString::ParseIntoArrayWS` (whitespace delimiters, empties
culled). -/
def splitWS (s : Str) : List Str := splitCull isWS s

/-- Model of `ParseIntoArray(Tokens, TEXT(" "), true)`: split on the space
character only, culling empties. -/
def splitSpace (s : Str) : List Str := splitCull (fun c => c == ' ') s

/-- Digit test for ASCII decimal digits. -/
def isDigit (c : Char) : Bool := 48 ≤ c.toNat && c.toNat ≤ 57

/-- Accumulate leading decimal digits, stopping at the first non-digit; the
digit-consuming core of `FCString::Atoi`. -/
def atoiDigits : Str → Int → Int
  | [], acc => acc
  | c :: cs, acc =>
    if isDigit c then atoiDigits cs (acc * 10 + ((c.toNat : Int) - 48)) else acc

/-- Model of `FCString::Atoi`: skip leading whitespace, read an optional sign
and then leading digits; `0` when no digits are present.  Exact on in-range
inputs (the theorems below only use it within `int32` range). -/
def atoi (s : Str) : Int :=
  match s.dropWhile isWS with
  | [] => 0
  | c :: cs =>
    if c = '-' then -(atoiDigits cs 0)
    else if c = '+' then atoiDigits cs 0
    else atoiDigits (c :: cs) 0

/-- Body of `FCString::IsNumeric` after the optional sign: every remaining
character must be a digit, except for at most one decimal point. -/
def isNumericBody : Str → Bool → Bool
  | [], _ => true
  | c :: cs, hasDot =>
    if c = '.' then
      if hasDot then false else isNumericBody cs true
    else if isDigit c then isNumericBody cs hasDot
    else false

/-- Model of `FCString::IsNumeric`: one optional leading sign, then digits
with at most one decimal point anywhere among them (an empty remainder
passes, as in the source). -/
def isNumericStr (s : Str) : Bool :=
  match s with
  | c :: cs =>
    if c = '-' || c = '+' then isNumericBody cs false
    else isNumericBody (c :: cs) false
  | [] => true

/-- Model of `LexTryParseString` for `int32`: gated on `FCString::IsNumeric`,
with the value then assigned through `LexFromString`, that is
`FCString::Atoi` - so a token such as `2.5` is accepted and reads as `2`;
exact on in-range inputs. -/
def lexTryParseInt (s : Str) : Option Int :=
  if isNumericStr s then some (atoi s) else none

/-- Run `lexTryParseInt` over every token, failing if any token fails. -/
def parseIntTokens : List Str → Option (List Int)
  | [] => some []
  | t :: ts =>
    match lexTryParseInt t with
    | none => none
    | some v => (parseIntTokens ts).map (fun vs => v :: vs)

/-- Model of the static helper `ParseIntList` of variant A: tokenize on
whitespace, read every token with `lexTryParseInt` (failing as soon as one
token fails the `IsNumeric` gate), succeed only with at least one value. -/
def ParseIntList (s : Str) : Option (List Int) :=
  match parseIntTokens (splitWS s) with
  | none => none
  | some vs => if vs.length = 0 then none else some vs

/-- Reinterpretation of two bytes as one little-endian signed 16-bit sample,
as the `reinterpret_cast<const int16*>` reads do on the little-endian host. -/
def toInt16 (lo hi : Nat) : Int :=
  let v : Nat := lo % 256 + 256 * (hi % 256)
  if v < 32768 then (v : Int) else (v : Int) - 65536

/-- The sequence of 16-bit samples of a byte buffer; a trailing odd byte is
not part of any sample (`NumSamples = TotalBytes / 2`). -/
def samplesOfInt16 : List Nat → List Int
  | [] => []
  | [_] => []
  | lo :: hi :: rest => toInt16 lo hi :: samplesOfInt16 rest

/-- The scanning loop shared by `ComputeVolumeMinMaxInt16` and
`LoadRawDataAndComputeMinMax`: running minimum and maximum over the remaining
samples. -/
def minmaxFold : Int → Int → List Int → Int × Int
  | mn, mx, [] => (mn, mx)
  | mn, mx, v :: vs =>
    minmaxFold (if v < mn then v else mn) (if v > mx then v else mx) vs

/-- Model of `AVMVolumeManager::ComputeVolumeMinMaxInt16` (variant B): both
outputs are `0` when fewer than one full sample is present, otherwise the
minimum and maximum over all full samples, scanning from the first one. -/
def ComputeVolumeMinMaxInt16 (bytes : List Nat) : Int × Int :=
  match samplesOfInt16 bytes with
  | [] => (0, 0)
  | s :: rest => minmaxFold s s rest

/-- Error kinds of header parsing, named after the spec's taxonomy; each
constructor corresponds to one `OutError`/`UE_LOG` message of the source. -/
inductive ParseErr where
  | invalidMagic
  | emptyFile
  | unsupportedDimension
  | unsupportedEncoding
  | unsupportedEndian
  | invalidSizes
  | missingDataFile
  | missingType
  | missingEncoding
  deriving DecidableEq

/-- Error kinds of raw-data loading. -/
inductive LoadErr where
  | notFound
  | readFailure
  | unsupportedEncoding
  | unsupportedType
  | emptyData
  | noSamples
  deriving DecidableEq

/-- The header struct `FVMNRRDHeaderInfo` shared by variants A and B (the
source field `Type` is called `TypeStr` here because `Type` is reserved in
Lean). -/
structure FVMNRRDHeaderInfo where
  SizeX : Int := 0
  SizeY : Int := 0
  SizeZ : Int := 0
  DataFileName : Str := []
  TypeStr : Str := []
  Encoding : Str := []
  Endian : Str := []
  deriving DecidableEq

/-- The header struct `FVMNRRDHeader` of variant C.  `RawFilePath` stores the
`data file` value (path resolution against the header directory is an
engine-path concern outside the decoder model); `Spacing`/`Origin` are float
fields never read by the decoder and not modelled. -/
structure FVMNRRDHeader where
  SizeX : Int := 0
  SizeY : Int := 0
  SizeZ : Int := 0
  RawFilePath : Str := []
  BytesPerVoxel : Int := 2
  bLittleEndian : Bool := true
  MinValue : Int := 0
  MaxValue : Int := 0
  deriving DecidableEq

/-- Early-exit fold of a step function over the lines, mirroring the
`for`-loops that `return false` on a fatal line. -/
def foldE {σ α ε : Type} (f : σ → α → Except ε σ) : σ → List α → Except ε σ
  | st, [] => .ok st
  | st, a :: as =>
    match f st a with
    | .error e => .error e
    | .ok st2 => foldE f st2 as

/-- Last line of a list on which `f` fires, mirroring the fact that a later
key line overwrites an earlier one. -/
def lastSome {α β : Type} (f : α → Option β) : List α → Option β
  | [] => none
  | a :: as =>
    match lastSome f as with
    | some b => some b
    | none => f a

/-- Success test on `Except`. -/
def isOkE {ε α : Type} : Except ε α → Bool
  | .ok _ => true
  | .error _ => false

/-- Two to the 63rd and 64th, and wrapping of an integer into signed 64-bit
range, modelling `int64` arithmetic where its width could be observable. -/
def wrap64 (n : Int) : Int := (n + 2 ^ 63) % 2 ^ 64 - 2 ^ 63

/-! Variant A: `ParseNRRDHeader` at VMVolumeManager.cpp lines 51-147 and
`LoadRawData` at lines 149-191. -/

/-- Classification of one body line by variant A's loop: skip blank and `#`
lines, skip lines without a colon, otherwise split at the first colon, trim
both sides, and match the key case-insensitively. -/
inductive LineA where
  | skip
  | sizesOk (a b c : Int)
  | sizesBad
  | typeV (v : Str)
  | encodingV (v : Str)
  | endianV (v : Str)
  | dataFileV (v : Str)

def classifyA (l : Str) : LineA :=
  if l.isEmpty || startsWithCI l ("#".data) then .skip
  else
    match splitFirstColon l with
    | none => .skip
    | some (k, v) =>
      let key := trim k
      let vl := trim v
      if eqCI key ("sizes".data) then
        match ParseIntList vl with
        | some [a, b, c] => .sizesOk a b c
        | _ => .sizesBad
      else if eqCI key ("type".data) then .typeV vl
      else if eqCI key ("encoding".data) then .encodingV vl
      else if eqCI key ("endian".data) then .endianV vl
      else if eqCI key ("data file".data) then .dataFileV vl
      else .skip

/-- One loop iteration of variant A.  The exporter writes `sizes: Z Y X`, so
`Sizes[0]` goes to `SizeZ`, `Sizes[1]` to `SizeY`, `Sizes[2]` to `SizeX`. -/
def stepA (st : FVMNRRDHeaderInfo) (l : Str) : Except ParseErr FVMNRRDHeaderInfo :=
  match classifyA l with
  | .skip => .ok st
  | .sizesBad => .error .invalidSizes
  | .sizesOk a b c => .ok { st with SizeZ := a, SizeY := b, SizeX := c }
  | .typeV v => .ok { st with TypeStr := v }
  | .encodingV v => .ok { st with Encoding := v }
  | .endianV v => .ok { st with Endian := v }
  | .dataFileV v => .ok { st with DataFileName := v }

/-- Post-loop validation of variant A, in source order: sizes, data file,
type, encoding. -/
def finishA (st : FVMNRRDHeaderInfo) : Except ParseErr FVMNRRDHeaderInfo :=
  if st.SizeX ≤ 0 ∨ st.SizeY ≤ 0 ∨ st.SizeZ ≤ 0 then .error .invalidSizes
  else if st.DataFileName.isEmpty then .error .missingDataFile
  else if st.TypeStr.isEmpty then .error .missingType
  else if st.Encoding.isEmpty then .error .missingEncoding
  else .ok st

def initA : FVMNRRDHeaderInfo := {}

/-- Lines as variant A sees them: `ParseIntoArrayLines` culls empty lines. -/
def culledA (lines : List Str) : List Str := lines.filter (fun l => !l.isEmpty)

/-- The lines variant A's loop actually processes (indices from 1). -/
def bodyA (lines : List Str) : List Str := (culledA lines).drop 1

/-- Model of variant A's `ParseNRRDHeader` (cpp lines 51-147), applied to the
lines of the header file. -/
def ParseNRRDHeaderA (lines : List Str) : Except ParseErr FVMNRRDHeaderInfo :=
  match culledA lines with
  | [] => .error .invalidMagic
  | first :: rest =>
    if startsWithCI first ("NRRD".data) then
      match foldE stepA initA rest with
      | .error e => .error e
      | .ok st => finishA st
    else .error .invalidMagic

/-- Model of variant A's `LoadRawData` (cpp lines 149-191): fatal checks on
encoding and type, then the file is read; a size different from
`int64(SizeX) * SizeY * SizeZ * 2` only logs a warning and the bytes are
returned at their actual length. -/
def LoadRawDataA (header : FVMNRRDHeaderInfo) (rawFile : Option (List Nat)) :
    Except LoadErr (List Nat) :=
  if !(eqCI header.Encoding ("raw".data)) then .error .unsupportedEncoding
  else if !(eqCI header.TypeStr ("short".data)) && !(eqCI header.TypeStr ("int16".data)) then
    .error .unsupportedType
  else
    match rawFile with
    | none => .error .notFound
    | some bytes => .ok bytes

/-! Variant B: `ParseNRRDHeader` at VMVolumeManager.cpp lines 480-622. -/

/-- Parsing state of variant B's loop: `Dim`, the three raw `SizesTokens`,
and the header string fields written directly by the loop. -/
structure StB where
  Dim : Int := 0
  s0 : Int := 0
  s1 : Int := 0
  s2 : Int := 0
  TypeStr : Str := []
  Encoding : Str := []
  Endian : Str := []
  DataFileName : Str := []
  deriving DecidableEq

/-- Classification of one line by variant B's loop, on the trimmed line, with
the source's chain of `StartsWith` tests in order.  `spacings:` lines only
fill the float `Spacing` field, which no claim observes. -/
inductive LineB where
  | skip
  | dimV (v : Int)
  | sizesOk (a b c : Int)
  | sizesBad
  | typeV (v : Str)
  | encodingV (v : Str)
  | endianV (v : Str)
  | dataFileV (v : Str)
  | spacingsV

def classifyB (rawLine : Str) : LineB :=
  let l := trim rawLine
  if l.isEmpty || startsWithCI l ("#".data) then .skip
  else if startsWithCI l ("dimension:".data) then .dimV (atoi (trim (l.drop 10)))
  else if startsWithCI l ("sizes:".data) then
    match splitSpace (trim (l.drop 6)) with
    | a :: b :: c :: _ => .sizesOk (atoi a) (atoi b) (atoi c)
    | _ => .sizesBad
  else if startsWithCI l ("type:".data) then .typeV (trim (l.drop 5))
  else if startsWithCI l ("encoding:".data) then .encodingV (trim (l.drop 9))
  else if startsWithCI l ("endian:".data) then .endianV (trim (l.drop 7))
  else if startsWithCI l ("data file:".data) then .dataFileV (trim (l.drop 10))
  else if startsWithCI l ("spacings:".data) then .spacingsV
  else .skip

/-- One loop iteration of variant B; a sizes line with fewer than 3 tokens is
fatal, otherwise the first three tokens are read with `Atoi` (any extra
tokens are ignored). -/
def stepB (st : StB) (l : Str) : Except ParseErr StB :=
  match classifyB l with
  | .skip => .ok st
  | .dimV v => .ok { st with Dim := v }
  | .sizesBad => .error .invalidSizes
  | .sizesOk a b c => .ok { st with s0 := a, s1 := b, s2 := c }
  | .typeV v => .ok { st with TypeStr := v }
  | .encodingV v => .ok { st with Encoding := v }
  | .endianV v => .ok { st with Endian := v }
  | .dataFileV v => .ok { st with DataFileName := v }
  | .spacingsV => .ok st

/-- Post-loop validation of variant B, in source order: dimension, sizes
positivity, axis remap (Z Y X to X Y Z), type warning, encoding, endian,
data file.  The `Bool` of the result records whether the non-fatal type
warning fired. -/
def finishB (st : StB) : Except ParseErr (FVMNRRDHeaderInfo × Bool) :=
  if st.Dim ≠ 3 then .error .unsupportedDimension
  else if st.s0 ≤ 0 ∨ st.s1 ≤ 0 ∨ st.s2 ≤ 0 then .error .invalidSizes
  else
    let warn := !(eqCI st.TypeStr ("short".data))
    if !(eqCI st.Encoding ("raw".data)) then .error .unsupportedEncoding
    else if !(st.Endian.isEmpty) && !(eqCI st.Endian ("little".data)) then
      .error .unsupportedEndian
    else if st.DataFileName.isEmpty then .error .missingDataFile
    else
      .ok ({ SizeX := st.s2, SizeY := st.s1, SizeZ := st.s0,
             DataFileName := st.DataFileName, TypeStr := st.TypeStr,
             Encoding := st.Encoding, Endian := st.Endian }, warn)

def initB : StB := {}

/-- Model of variant B's `ParseNRRDHeader` (cpp lines 480-622).  The loop
runs over all lines, including the magic line (which matches no key). -/
def ParseNRRDHeaderB (lines : List Str) : Except ParseErr (FVMNRRDHeaderInfo × Bool) :=
  match lines with
  | [] => .error .emptyFile
  | l0 :: _ =>
    if startsWithCI (trim l0) ("NRRD".data) then
      match foldE stepB initB lines with
      | .error e => .error e
      | .ok st => finishB st
    else .error .invalidMagic

/-! Variant C: `ParseNRRDHeader` at unnamed/part_000 lines 103-208 and
`LoadRawDataAndComputeMinMax` at lines 214-281. -/

/-- Parsing state of variant C's loop: the three raw sizes, the relative data
file name, the endianness flag, and whether the type warning fired. -/
structure StC where
  s0 : Int := 0
  s1 : Int := 0
  s2 : Int := 0
  DataFileRel : Str := []
  bLittleEndian : Bool := true
  warnType : Bool := false
  deriving DecidableEq

/-- Classification of one line by variant C's loop, on the trimmed line, with
the source's chain of `StartsWith` tests in order (type, dimension, sizes,
endian, data file). -/
inductive LineC where
  | skip
  | typeV (v : Str)
  | dimV (v : Int)
  | sizesOk (a b c : Int)
  | sizesBad
  | endianV (v : Str)
  | dataFileV (v : Str)

def classifyC (rawLine : Str) : LineC :=
  let l := trim rawLine
  if l.isEmpty || startsWithCI l ("#".data) then .skip
  else if startsWithCI l ("type:".data) then .typeV (trim (l.drop 5))
  else if startsWithCI l ("dimension:".data) then .dimV (atoi (trim (l.drop 10)))
  else if startsWithCI l ("sizes:".data) then
    match splitSpace (trim (l.drop 6)) with
    | [a, b, c] => .sizesOk (atoi a) (atoi b) (atoi c)
    | _ => .sizesBad
  else if startsWithCI l ("endian:".data) then .endianV (trim (l.drop 7))
  else if startsWithCI l ("data file:".data) then .dataFileV (trim (l.drop 10))
  else .skip

/-- One loop iteration of variant C: a type other than `short` only sets the
warning; an explicit dimension other than 3 is fatal; a sizes line must have
exactly 3 tokens; `endian: big` (case-insensitively) clears `bLittleEndian`
and is not fatal. -/
def stepC (st : StC) (l : Str) : Except ParseErr StC :=
  match classifyC l with
  | .skip => .ok st
  | .typeV v => .ok { st with warnType := st.warnType || !(eqCI v ("short".data)) }
  | .dimV v => if v ≠ 3 then .error .unsupportedDimension else .ok st
  | .sizesBad => .error .invalidSizes
  | .sizesOk a b c => .ok { st with s0 := a, s1 := b, s2 := c }
  | .endianV v => .ok { st with bLittleEndian := !(eqCI v ("big".data)) }
  | .dataFileV v => .ok { st with DataFileRel := v }

/-- Post-loop validation of variant C: sizes positivity, data file presence,
then the axis remap (Z Y X to X Y Z) with `BytesPerVoxel = 2`. -/
def finishC (st : StC) : Except ParseErr (FVMNRRDHeader × Bool) :=
  if st.s0 ≤ 0 ∨ st.s1 ≤ 0 ∨ st.s2 ≤ 0 then .error .invalidSizes
  else if st.DataFileRel.isEmpty then .error .missingDataFile
  else
    .ok ({ SizeX := st.s2, SizeY := st.s1, SizeZ := st.s0,
           RawFilePath := st.DataFileRel, BytesPerVoxel := 2,
           bLittleEndian := st.bLittleEndian }, st.warnType)

def initC : StC := {}

/-- Model of variant C's `ParseNRRDHeader` (part_000 lines 103-208).  Lines
are not culled (`bCullEmpty = false`) and the magic check looks at the raw,
untrimmed first line. -/
def ParseNRRDHeaderC (lines : List Str) : Except ParseErr (FVMNRRDHeader × Bool) :=
  match lines with
  | [] => .error .invalidMagic
  | l0 :: _ =>
    if startsWithCI l0 ("NRRD".data) then
      match foldE stepC initC lines with
      | .error e => .error e
      | .ok st => finishC st
    else .error .invalidMagic

/-- Model of variant C's `LoadRawDataAndComputeMinMax` (part_000 lines
214-281): the expected byte count is `SizeX * SizeY * SizeZ * BytesPerVoxel`
in `int64` arithmetic; a shorter file is zero-padded at the tail
(`SetNumZeroed`), a longer one truncated (`SetNum`), an exact one kept; then
min/max over the int16 samples is computed and written into the header. -/
def LoadRawDataAndComputeMinMax (h : FVMNRRDHeader) (rawFile : Option (List Nat)) :
    Except LoadErr (List Nat × FVMNRRDHeader) :=
  match rawFile with
  | none => .error .notFound
  | some fileBytes =>
    let expected : Int := wrap64 (h.SizeX * h.SizeY * h.SizeZ * h.BytesPerVoxel)
    let bytes :=
      if (fileBytes.length : Int) < expected then
        fileBytes ++ List.replicate (expected.toNat - fileBytes.length) 0
      else if (fileBytes.length : Int) > expected then fileBytes.take expected.toNat
      else fileBytes
    if bytes.length = 0 then .error .emptyData
    else
      match samplesOfInt16 bytes with
      | [] => .error .noSamples
      | s :: rest =>
        let mm := minmaxFold s s rest
        .ok (bytes, { h with MinValue := mm.1, MaxValue := mm.2 })

/-- Byte buffer of a successful `LoadRawDataAndComputeMinMax` result. -/
def bufOf : Except LoadErr (List Nat × FVMNRRDHeader) → Option (List Nat)
  | .ok (b, _) => some b
  | .error _ => none

/-! Line discriminators used to phrase hypotheses about header texts. -/

/-- Sizes triple contributed by a line in variant A (the last such line
wins). -/
def sizesOfLineA (l : Str) : Option (Int × Int × Int) :=
  match classifyA l with
  | .sizesOk a b c => some (a, b, c)
  | _ => none

/-- Sizes triple contributed by a line in variant B. -/
def sizesOfLineB (l : Str) : Option (Int × Int × Int) :=
  match classifyB l with
  | .sizesOk a b c => some (a, b, c)
  | _ => none

/-- Sizes triple contributed by a line in variant C. -/
def sizesOfLineC (l : Str) : Option (Int × Int × Int) :=
  match classifyC l with
  | .sizesOk a b c => some (a, b, c)
  | _ => none

/-- Whether variant A's loop reads the line as a `type` field line. -/
def isTypeLineA (l : Str) : Bool :=
  match classifyA l with
  | .typeV _ => true
  | _ => false

/-- Whether variant A's loop reads the line as an `encoding` field line. -/
def isEncodingLineA (l : Str) : Bool :=
  match classifyA l with
  | .encodingV _ => true
  | _ => false

/-- Whether variant B's loop reads the line as a `dimension` field line. -/
def isDimLineB (l : Str) : Bool :=
  match classifyB l with
  | .dimV _ => true
  | _ => false

/-- Whether variant C's loop reads the line as a `dimension` field line. -/
def isDimLineC (l : Str) : Bool :=
  match classifyC l with
  | .dimV _ => true
  | _ => false

/-- Whether variant C's loop reads the line as an `endian` field line. -/
def isEndianLineC (l : Str) : Bool :=
  match classifyC l with
  | .endianV _ => true
  | _ => false

/-- Dimension value contributed by a line in variant B. -/
def dimOfLineB (l : Str) : Option Int :=
  match classifyB l with
  | .dimV v => some v
  | _ => none

/-- Type value contributed by a line in variant A. -/
def typeOfLineA (l : Str) : Option Str :=
  match classifyA l with
  | .typeV v => some v
  | _ => none

/-- Encoding value contributed by a line in variant A. -/
def encodingOfLineA (l : Str) : Option Str :=
  match classifyA l with
  | .encodingV v => some v
  | _ => none

/-- Endianness flag contributed by a line in variant C. -/
def endianOfLineC (l : Str) : Option Bool :=
  match classifyC l with
  | .endianV v => some (!(eqCI v ("big".data)))
  | _ => none

/-- First line of the text that is not blank (not empty and not all
whitespace). -/
def firstNonBlankLine (lines : List Str) : Option Str :=
  (lines.dropWhile (fun l => (trim l).isEmpty)).head?

/-! Concrete header texts and headers used by witnesses and counterexamples. -/

/-- Fully valid header text with distinct sizes, used for the axis-reversal
law. -/
def c2Lines : List Str :=
  ["NRRD0004".data, "type: short".data, "dimension: 3".data, "sizes: 4 5 6".data,
   "encoding: raw".data, "endian: little".data, "data file: v.raw".data]

def c2HdrA : FVMNRRDHeaderInfo :=
  { SizeX := 6, SizeY := 5, SizeZ := 4, DataFileName := "v.raw".data,
    TypeStr := "short".data, Encoding := "raw".data, Endian := "little".data }

def c2HdrB : FVMNRRDHeaderInfo := c2HdrA

def c2HdrC : FVMNRRDHeader :=
  { SizeX := 6, SizeY := 5, SizeZ := 4, RawFilePath := "v.raw".data,
    BytesPerVoxel := 2, bLittleEndian := true }

/-- Header text declaring big endianness, otherwise fully valid. -/
def c3BigLines : List Str :=
  ["NRRD0004".data, "type: short".data, "dimension: 3".data, "sizes: 2 2 2".data,
   "encoding: raw".data, "endian: big".data, "data file: v.raw".data]

def c3BigHdr : FVMNRRDHeader :=
  { SizeX := 2, SizeY := 2, SizeZ := 2, RawFilePath := "v.raw".data,
    BytesPerVoxel := 2, bLittleEndian := false }

/-- Header text with no `endian` line, otherwise fully valid. -/
def c3NoEndLines : List Str :=
  ["NRRD0004".data, "type: short".data, "dimension: 3".data, "sizes: 2 2 2".data,
   "encoding: raw".data, "data file: v.raw".data]

def c3NoEndHdr : FVMNRRDHeader :=
  { SizeX := 2, SizeY := 2, SizeZ := 2, RawFilePath := "v.raw".data,
    BytesPerVoxel := 2, bLittleEndian := true }

/-- Header text declaring `type: float`, otherwise fully valid. -/
def c4Lines : List Str :=
  ["NRRD0004".data, "type: float".data, "dimension: 3".data, "sizes: 2 2 2".data,
   "encoding: raw".data, "endian: little".data, "data file: v.raw".data]

def c4HdrA : FVMNRRDHeaderInfo :=
  { SizeX := 2, SizeY := 2, SizeZ := 2, DataFileName := "v.raw".data,
    TypeStr := "float".data, Encoding := "raw".data, Endian := "little".data }

def c4HdrB : FVMNRRDHeaderInfo := c4HdrA

def c4HdrC : FVMNRRDHeader :=
  { SizeX := 2, SizeY := 2, SizeZ := 2, RawFilePath := "v.raw".data,
    BytesPerVoxel := 2, bLittleEndian := true }

/-- Header with an unsupported declared type, used to instantiate the general
variant-A load failure. -/
def c4uHdr : FVMNRRDHeaderInfo := { TypeStr := "uint8".data, Encoding := "raw".data }

/-- Header text whose sizes line has four tokens, otherwise fully valid. -/
def c5Lines : List Str :=
  ["NRRD0004".data, "type: short".data, "dimension: 3".data, "sizes: 2 2 2 2".data,
   "encoding: raw".data, "endian: little".data, "data file: v.raw".data]

def c5HdrB : FVMNRRDHeaderInfo :=
  { SizeX := 2, SizeY := 2, SizeZ := 2, DataFileName := "v.raw".data,
    TypeStr := "short".data, Encoding := "raw".data, Endian := "little".data }

/-- Header text whose sizes line carries the token `2.5`, which
`FCString::IsNumeric` accepts and `FCString::Atoi` reads as `2`. -/
def c5DotLines : List Str :=
  ["NRRD0004".data, "type: short".data, "dimension: 3".data, "sizes: 2.5 3 4".data,
   "encoding: raw".data, "endian: little".data, "data file: v.raw".data]

def c5DotHdrA : FVMNRRDHeaderInfo :=
  { SizeX := 4, SizeY := 3, SizeZ := 2, DataFileName := "v.raw".data,
    TypeStr := "short".data, Encoding := "raw".data, Endian := "little".data }

/-- Header text whose sizes line has only two tokens. -/
def c5BadLines : List Str :=
  ["NRRD0004".data, "type: short".data, "dimension: 3".data, "sizes: 2 2".data,
   "encoding: raw".data, "endian: little".data, "data file: v.raw".data]

/-- Header text with no `dimension` line, otherwise fully valid. -/
def c6Lines : List Str :=
  ["NRRD0004".data, "type: short".data, "sizes: 2 2 2".data,
   "encoding: raw".data, "endian: little".data, "data file: v.raw".data]

def c6HdrC : FVMNRRDHeader :=
  { SizeX := 2, SizeY := 2, SizeZ := 2, RawFilePath := "v.raw".data,
    BytesPerVoxel := 2, bLittleEndian := true }

/-- Header text whose first line carries the magic behind one leading space,
otherwise fully valid. -/
def c7Lines : List Str :=
  [" NRRD0004".data, "type: short".data, "dimension: 3".data, "sizes: 2 2 2".data,
   "encoding: raw".data, "endian: little".data, "data file: v.raw".data]

def c7HdrB : FVMNRRDHeaderInfo :=
  { SizeX := 2, SizeY := 2, SizeZ := 2, DataFileName := "v.raw".data,
    TypeStr := "short".data, Encoding := "raw".data, Endian := "little".data }

/-- Header text with a garbage magic line, otherwise well-formed fields. -/
def c7BadLines : List Str :=
  ["BAD0004".data, "type: short".data, "dimension: 3".data, "sizes: 2 2 2".data,
   "encoding: raw".data, "endian: little".data, "data file: v.raw".data]

/-- Header for the variant-A loader length-mismatch counterexample. -/
def c1HdrA : FVMNRRDHeaderInfo :=
  { SizeX := 1, SizeY := 1, SizeZ := 1, DataFileName := "v.raw".data,
    TypeStr := "short".data, Encoding := "raw".data }

/-- Header driving the part_000 loader in the C1 witness (expects 4 bytes). -/
def c1Hdr : FVMNRRDHeader :=
  { SizeX := 1, SizeY := 1, SizeZ := 2, RawFilePath := "v.raw".data }

/-- Header text with no `type` line, otherwise fully valid. -/
def c10Lines : List Str :=
  ["NRRD0004".data, "dimension: 3".data, "sizes: 2 2 2".data,
   "encoding: raw".data, "endian: little".data, "data file: v.raw".data]

/-- Little-endian encoding of the samples `[-100, 50, 0, 32767]`. -/
def c8Bytes : List Nat := [156, 255, 50, 0, 0, 0, 255, 127]

/-! Basic lemmas about the embedded helpers. -/

theorem isOkE_eq_true {ε α : Type} (x : Except ε α) :
    isOkE x = true ↔ ∃ a, x = .ok a := by
  cases x with
  | ok a => simp [isOkE]
  | error e => simp [isOkE]

theorem lastSome_eq_none {α β : Type} (f : α → Option β) :
    (ls : List α) → (∀ a ∈ ls, f a = none) → lastSome f ls = none
  | [], _ => rfl
  | a :: as, h => by
    have ht := lastSome_eq_none f as (fun x hx => h x (List.mem_cons_of_mem a hx))
    have ha := h a (List.mem_cons_self a as)
    simp [lastSome, ht, ha]

theorem samplesOfInt16_eq_nil_iff : (l : List Nat) →
    (samplesOfInt16 l = [] ↔ l.length < 2)
  | [] => by simp [samplesOfInt16]
  | [a] => by simp [samplesOfInt16]
  | a :: b :: t => by simp [samplesOfInt16]

theorem samplesOfInt16_length : (l : List Nat) →
    (samplesOfInt16 l).length = l.length / 2
  | [] => rfl
  | [_] => by simp [samplesOfInt16]
  | _ :: _ :: rest => by
    simp only [samplesOfInt16, List.length_cons, samplesOfInt16_length rest]
    omega

theorem samplesOfInt16_take_even : (l : List Nat) →
    samplesOfInt16 (l.take (2 * (l.length / 2))) = samplesOfInt16 l
  | [] => rfl
  | [_] => by simp [samplesOfInt16]
  | a :: b :: rest => by
    simp only [List.length_cons]
    rw [show 2 * ((rest.length + 1 + 1) / 2) = (2 * (rest.length / 2) + 1) + 1 by omega]
    simp only [List.take_succ_cons, samplesOfInt16]
    rw [samplesOfInt16_take_even rest]

theorem minmaxFold_spec : (vs : List Int) → ∀ mn mx : Int,
    ((minmaxFold mn mx vs).1 = mn ∨ (minmaxFold mn mx vs).1 ∈ vs) ∧
    ((minmaxFold mn mx vs).2 = mx ∨ (minmaxFold mn mx vs).2 ∈ vs) ∧
    (minmaxFold mn mx vs).1 ≤ mn ∧ mx ≤ (minmaxFold mn mx vs).2 ∧
    ∀ v ∈ vs, (minmaxFold mn mx vs).1 ≤ v ∧ v ≤ (minmaxFold mn mx vs).2
  | [] => by intro mn mx; simp [minmaxFold]
  | v :: vs => by
    intro mn mx
    obtain ⟨ih1, ih2, ih3, ih4, ih5⟩ :=
      minmaxFold_spec vs (if v < mn then v else mn) (if v > mx then v else mx)
    simp only [minmaxFold]
    refine ⟨?_, ?_, ?_, ?_, ?_⟩
    · rcases ih1 with h | h
      · rw [h]; split
        · exact Or.inr (List.mem_cons_self _ _)
        · exact Or.inl rfl
      · exact Or.inr (List.mem_cons_of_mem _ h)
    · rcases ih2 with h | h
      · rw [h]; split
        · exact Or.inr (List.mem_cons_self _ _)
        · exact Or.inl rfl
      · exact Or.inr (List.mem_cons_of_mem _ h)
    · refine le_trans ih3 ?_
      split <;> omega
    · refine le_trans ?_ ih4
      split <;> omega
    · intro u hu
      rcases List.mem_cons.mp hu with rfl | hu'
      · constructor
        · refine le_trans ih3 ?_
          split <;> omega
        · refine le_trans ?_ ih4
          split <;> omega
      · exact ih5 u hu'

/-- Claim C8: for every byte buffer with at least one full 16-bit sample,
`ComputeVolumeMinMaxInt16` returns the minimum and the maximum of the buffer
read as signed 16-bit samples (both outputs are attained samples and bound
every sample); for every buffer shorter than one sample it returns the
sentinel pair `(0, 0)`. -/
theorem c8_minmax : ∀ bytes : List Nat,
    (bytes.length < 2 → ComputeVolumeMinMaxInt16 bytes = (0, 0)) ∧
    (2 ≤ bytes.length →
      (ComputeVolumeMinMaxInt16 bytes).1 ∈ samplesOfInt16 bytes ∧
      (ComputeVolumeMinMaxInt16 bytes).2 ∈ samplesOfInt16 bytes ∧
      ∀ v ∈ samplesOfInt16 bytes,
        (ComputeVolumeMinMaxInt16 bytes).1 ≤ v ∧ v ≤ (ComputeVolumeMinMaxInt16 bytes).2) := by
  intro bytes
  constructor
  · intro hlt
    have hnil : samplesOfInt16 bytes = [] := (samplesOfInt16_eq_nil_iff bytes).mpr hlt
    simp [ComputeVolumeMinMaxInt16, hnil]
  · intro hge
    cases hs : samplesOfInt16 bytes with
    | nil =>
      exfalso
      have := (samplesOfInt16_eq_nil_iff bytes).mp hs
      omega
    | cons s rest =>
      have hc : ComputeVolumeMinMaxInt16 bytes = minmaxFold s s rest := by
        simp [ComputeVolumeMinMaxInt16, hs]
      obtain ⟨h1, h2, h3, h4, h5⟩ := minmaxFold_spec rest s s
      rw [hc]
      refine ⟨?_, ?_, ?_⟩
      · rcases h1 with h | h
        · rw [h]; exact List.mem_cons_self _ _
        · exact List.mem_cons_of_mem _ h
      · rcases h2 with h | h
        · rw [h]; exact List.mem_cons_self _ _
        · exact List.mem_cons_of_mem _ h
      · intro v hv
        rcases List.mem_cons.mp hv with rfl | hv'
        · exact ⟨h3, h4⟩
        · exact h5 v hv'

/-- Claim C8 witness: on the buffer encoding `[-100, 50, 0, 32767]` the scan
returns `(-100, 32767)`, and both outputs are attained samples. -/
theorem c8_witness :
    ComputeVolumeMinMaxInt16 c8Bytes = (-100, 32767) ∧
    (ComputeVolumeMinMaxInt16 c8Bytes).1 ∈ samplesOfInt16 c8Bytes ∧
    (ComputeVolumeMinMaxInt16 c8Bytes).2 ∈ samplesOfInt16 c8Bytes :=
  ⟨by decide, ((c8_minmax c8Bytes).2 (by decide)).1, ((c8_minmax c8Bytes).2 (by decide)).2.1⟩

/-- Claim C9: `ComputeVolumeMinMaxInt16` is total at every buffer length; it
scans exactly `length / 2` samples, and its result only depends on the even
prefix of the buffer, so a trailing odd byte is silently ignored. -/
theorem c9_total_odd : ∀ bytes : List Nat,
    (samplesOfInt16 bytes).length = bytes.length / 2 ∧
    ComputeVolumeMinMaxInt16 bytes =
      ComputeVolumeMinMaxInt16 (bytes.take (2 * (bytes.length / 2))) := by
  intro bytes
  refine ⟨samplesOfInt16_length bytes, ?_⟩
  unfold ComputeVolumeMinMaxInt16
  rw [samplesOfInt16_take_even bytes]

/-! Lemmas about trimming and the magic check. -/

theorem magic_chars : ("NRRD".data : Str) = ['N', 'R', 'R', 'D'] := rfl

theorem lowerChar_eq_self_of_ws (c : Char) (h : isWS c = true) : lowerChar c = c := by
  have h2 : c = ' ' ∨ c = '\t' ∨ c = '\r' ∨ c = '\n' := by
    simpa [isWS, or_assoc] using h
  rcases h2 with h2 | h2 | h2 | h2 <;> subst h2 <;> decide

theorem trimEnd_cons_of_not_ws (a : Char) (xs : Str) (h : isWS a = false) :
    trimEnd (a :: xs) = a :: trimEnd xs := by
  simp only [trimEnd]
  cases htx : trimEnd xs with
  | nil => simp [h]
  | cons y ys => rfl

theorem not_ws_of_lower (c d : Char) (hd : isWS d = false) (h : lowerChar c = d) :
    isWS c = false := by
  cases hws : isWS c
  · rfl
  · exfalso
    rw [lowerChar_eq_self_of_ws c hws] at h
    subst h
    rw [hws] at hd
    cases hd

theorem startsWithCI_trim_magic (l : Str) (h : startsWithCI l ("NRRD".data) = true) :
    startsWithCI (trim l) ("NRRD".data) = true := by
  rw [magic_chars] at h ⊢
  obtain - | ⟨a, l⟩ := l
  · simp [startsWithCI] at h
  obtain - | ⟨b, l⟩ := l
  · simp [startsWithCI] at h
  obtain - | ⟨c, l⟩ := l
  · simp [startsWithCI] at h
  obtain - | ⟨d, t⟩ := l
  · simp [startsWithCI] at h
  simp only [startsWithCI, Bool.and_eq_true, Bool.and_true, beq_iff_eq] at h
  obtain ⟨ha, hb, hc, hd⟩ := h
  have hNa : lowerChar a = 'n' := by rw [ha]; decide
  have hNb : lowerChar b = 'r' := by rw [hb]; decide
  have hNc : lowerChar c = 'r' := by rw [hc]; decide
  have hNd : lowerChar d = 'd' := by rw [hd]; decide
  have hwa : isWS a = false := not_ws_of_lower a 'n' (by decide) hNa
  have hwb : isWS b = false := not_ws_of_lower b 'r' (by decide) hNb
  have hwc : isWS c = false := not_ws_of_lower c 'r' (by decide) hNc
  have hwd : isWS d = false := not_ws_of_lower d 'd' (by decide) hNd
  simp only [trim, trimStart, List.dropWhile_cons, hwa, Bool.false_eq_true, if_false]
  rw [trimEnd_cons_of_not_ws a _ hwa, trimEnd_cons_of_not_ws b _ hwb,
    trimEnd_cons_of_not_ws c _ hwc, trimEnd_cons_of_not_ws d _ hwd]
  simp only [startsWithCI, Bool.and_eq_true, Bool.and_true, beq_iff_eq]
  exact ⟨ha, hb, hc, hd⟩

theorem blank_not_magic (l : Str) (hb : (trim l).isEmpty = true) :
    startsWithCI l ("NRRD".data) = false := by
  cases hs : startsWithCI l ("NRRD".data)
  · rfl
  · exfalso
    have h2 := startsWithCI_trim_magic l hs
    cases htl : trim l with
    | nil =>
      rw [htl, magic_chars] at h2
      simp [startsWithCI] at h2
    | cons x xs =>
      rw [htl] at hb
      simp at hb

theorem ParseNRRDHeaderB_magic (lines : List Str) (l : Str)
    (h1 : firstNonBlankLine lines = some l)
    (h2 : startsWithCI (trim l) ("NRRD".data) = false) :
    ParseNRRDHeaderB lines = .error .invalidMagic := by
  cases lines with
  | nil => simp [firstNonBlankLine] at h1
  | cons l0 t =>
    have hmag : startsWithCI (trim l0) ("NRRD".data) = false := by
      cases hb : (trim l0).isEmpty
      · have hfb : firstNonBlankLine (l0 :: t) = some l0 := by
          simp [firstNonBlankLine, List.dropWhile_cons, hb]
        rw [hfb] at h1
        injection h1 with h1
        subst h1
        exact h2
      · have htl : trim l0 = [] := by
          cases htl : trim l0
          · rfl
          · rw [htl] at hb; simp at hb
        rw [htl, magic_chars]
        rfl
    simp [ParseNRRDHeaderB, hmag]

theorem ParseNRRDHeaderC_magic (lines : List Str) (l : Str)
    (h1 : firstNonBlankLine lines = some l)
    (h2 : startsWithCI (trim l) ("NRRD".data) = false) :
    ParseNRRDHeaderC lines = .error .invalidMagic := by
  cases lines with
  | nil => simp [ParseNRRDHeaderC]
  | cons l0 t =>
    have hmag : startsWithCI l0 ("NRRD".data) = false := by
      cases hb : (trim l0).isEmpty
      · have hfb : firstNonBlankLine (l0 :: t) = some l0 := by
          simp [firstNonBlankLine, List.dropWhile_cons, hb]
        rw [hfb] at h1
        injection h1 with h1
        subst h1
        cases hraw : startsWithCI l0 ("NRRD".data)
        · rfl
        · have hcontra := startsWithCI_trim_magic l0 hraw
          rw [h2] at hcontra
          simp at hcontra
      · exact blank_not_magic l0 hb
    simp [ParseNRRDHeaderC, hmag]

theorem ParseNRRDHeaderA_magic : (lines : List Str) → ∀ l : Str,
    firstNonBlankLine lines = some l →
    startsWithCI (trim l) ("NRRD".data) = false →
    ParseNRRDHeaderA lines = .error .invalidMagic
  | [], l => by
    intro h1 h2
    simp [firstNonBlankLine] at h1
  | l0 :: t, l => by
    intro h1 h2
    cases hE : l0.isEmpty
    · -- first line is nonempty and heads the culled list
      have hculled : culledA (l0 :: t) = l0 :: culledA t := by
        simp [culledA, hE]
      have hmag : startsWithCI l0 ("NRRD".data) = false := by
        cases hb : (trim l0).isEmpty
        · have hfb : firstNonBlankLine (l0 :: t) = some l0 := by
            simp [firstNonBlankLine, List.dropWhile_cons, hb]
          rw [hfb] at h1
          injection h1 with h1
          subst h1
          cases hraw : startsWithCI l0 ("NRRD".data)
          · rfl
          · have hcontra := startsWithCI_trim_magic l0 hraw
            rw [h2] at hcontra
            simp at hcontra
        · exact blank_not_magic l0 hb
      simp [ParseNRRDHeaderA, hculled, hmag]
    · -- the empty first line is culled and is blank
      have hl0 : l0 = [] := by
        cases l0
        · rfl
        · simp at hE
      have hblank : (trim l0).isEmpty = true := by rw [hl0]; rfl
      have hforward : firstNonBlankLine (l0 :: t) = firstNonBlankLine t := by
        simp [firstNonBlankLine, List.dropWhile_cons, hblank]
      have hculled : culledA (l0 :: t) = culledA t := by
        simp [culledA, hE]
      have ih := ParseNRRDHeaderA_magic t l (hforward ▸ h1) h2
      simp only [ParseNRRDHeaderA] at ih ⊢
      rw [hculled]
      exact ih

/-- Claim C7 counterexample: the header text whose first (and first
non-blank) line is `" NRRD0004"` does not start with the literal four
characters `NRRD`, yet the second parser variant trims the line before the
magic check and parses the file successfully. -/
theorem c7_counterexample :
    firstNonBlankLine c7Lines = some (" NRRD0004".data) ∧
    startsWithCI (" NRRD0004".data) ("NRRD".data) = false ∧
    ParseNRRDHeaderB c7Lines = .ok (c7HdrB, false) :=
  ⟨rfl, by decide, rfl⟩

/-- Claim C7 as amended: for every input text having a first non-blank line
that, even after trimming surrounding whitespace, does not start with `NRRD`
(the comparison being case-insensitive, as `FString::StartsWith` defaults
to), every parser variant fails with InvalidMagic before reading any field
line. -/
theorem c7_amended : ∀ (lines : List Str) (l : Str),
    firstNonBlankLine lines = some l →
    startsWithCI (trim l) ("NRRD".data) = false →
    ParseNRRDHeaderA lines = .error .invalidMagic ∧
    ParseNRRDHeaderB lines = .error .invalidMagic ∧
    ParseNRRDHeaderC lines = .error .invalidMagic :=
  fun lines l h1 h2 =>
    ⟨ParseNRRDHeaderA_magic lines l h1 h2, ParseNRRDHeaderB_magic lines l h1 h2,
     ParseNRRDHeaderC_magic lines l h1 h2⟩

/-- Claim C7 witness: a header whose magic line reads `BAD0004` is rejected
with InvalidMagic by all three variants, all other fields notwithstanding. -/
theorem c7_witness :
    ParseNRRDHeaderA c7BadLines = .error .invalidMagic ∧
    ParseNRRDHeaderB c7BadLines = .error .invalidMagic ∧
    ParseNRRDHeaderC c7BadLines = .error .invalidMagic :=
  c7_amended c7BadLines ("BAD0004".data) rfl (by decide)

/-! Generic lemmas about `foldE`. -/

theorem foldE_lastSome {σ α ε γ : Type} (f : σ → α → Except ε σ) (g : σ → γ)
    (ext : α → Option γ)
    (hstep : ∀ st a st2, f st a = .ok st2 → g st2 = (ext a).getD (g st)) :
    (ls : List α) → ∀ st st', foldE f st ls = .ok st' →
      g st' = (lastSome ext ls).getD (g st)
  | [] => by
    intro st st' h
    simp only [foldE] at h
    injection h with h
    subst h
    simp [lastSome]
  | a :: as => by
    intro st st' h
    simp only [foldE] at h
    cases hf : f st a with
    | error e => rw [hf] at h; simp at h
    | ok st2 =>
      rw [hf] at h
      have h1 := hstep st a st2 hf
      have h2 := foldE_lastSome f g ext hstep as st2 st' h
      simp only [lastSome]
      cases hlast : lastSome ext as with
      | some v => rw [hlast] at h2; simpa using h2
      | none =>
        rw [hlast] at h2
        simp only [Option.getD_none] at h2
        rw [h2, h1]

theorem foldE_err_kind {σ α ε : Type} (f : σ → α → Except ε σ) (P : α → Bool) (bad : ε)
    (hstep : ∀ st a e, P a = false → f st a = .error e → e ≠ bad) :
    (ls : List α) → (∀ a ∈ ls, P a = false) → ∀ st e,
      foldE f st ls = .error e → e ≠ bad
  | [] => by
    intro _ st e h
    simp [foldE] at h
  | a :: as => by
    intro hP st e h
    simp only [foldE] at h
    cases hf : f st a with
    | error e0 =>
      rw [hf] at h
      injection h with h
      subst h
      exact hstep st a e0 (hP a (List.mem_cons_self a as)) hf
    | ok st2 =>
      rw [hf] at h
      exact foldE_err_kind f P bad hstep as
        (fun x hx => hP x (List.mem_cons_of_mem a hx)) st2 e h

/-! Per-step characterizations of the three loop bodies. -/

theorem stepB_sizes (st : StB) (l : Str) (st2 : StB) (hs : stepB st l = .ok st2) :
    (st2.s0, st2.s1, st2.s2) = (sizesOfLineB l).getD (st.s0, st.s1, st.s2) := by
  cases hcl : classifyB l
  all_goals simp only [stepB, hcl] at hs
  case sizesBad => simp at hs
  all_goals (injection hs with hs; subst hs; simp [sizesOfLineB, hcl])

theorem stepB_dim (st : StB) (l : Str) (st2 : StB) (hs : stepB st l = .ok st2) :
    st2.Dim = (dimOfLineB l).getD st.Dim := by
  cases hcl : classifyB l
  all_goals simp only [stepB, hcl] at hs
  case sizesBad => simp at hs
  all_goals (injection hs with hs; subst hs; simp [dimOfLineB, hcl])

theorem stepA_sizes (st : FVMNRRDHeaderInfo) (l : Str) (st2 : FVMNRRDHeaderInfo)
    (hs : stepA st l = .ok st2) :
    (st2.SizeZ, st2.SizeY, st2.SizeX) = (sizesOfLineA l).getD (st.SizeZ, st.SizeY, st.SizeX) := by
  cases hcl : classifyA l
  all_goals simp only [stepA, hcl] at hs
  case sizesBad => simp at hs
  all_goals (injection hs with hs; subst hs; simp [sizesOfLineA, hcl])

theorem stepA_type (st : FVMNRRDHeaderInfo) (l : Str) (st2 : FVMNRRDHeaderInfo)
    (hs : stepA st l = .ok st2) :
    st2.TypeStr = (typeOfLineA l).getD st.TypeStr := by
  cases hcl : classifyA l
  all_goals simp only [stepA, hcl] at hs
  case sizesBad => simp at hs
  all_goals (injection hs with hs; subst hs; simp [typeOfLineA, hcl])

theorem stepA_encoding (st : FVMNRRDHeaderInfo) (l : Str) (st2 : FVMNRRDHeaderInfo)
    (hs : stepA st l = .ok st2) :
    st2.Encoding = (encodingOfLineA l).getD st.Encoding := by
  cases hcl : classifyA l
  all_goals simp only [stepA, hcl] at hs
  case sizesBad => simp at hs
  all_goals (injection hs with hs; subst hs; simp [encodingOfLineA, hcl])

theorem stepC_sizes (st : StC) (l : Str) (st2 : StC) (hs : stepC st l = .ok st2) :
    (st2.s0, st2.s1, st2.s2) = (sizesOfLineC l).getD (st.s0, st.s1, st.s2) := by
  cases hcl : classifyC l
  all_goals simp only [stepC, hcl] at hs
  case sizesBad => simp at hs
  case dimV v =>
    split at hs
    · simp at hs
    · injection hs with hs; subst hs; simp [sizesOfLineC, hcl]
  all_goals (injection hs with hs; subst hs; simp [sizesOfLineC, hcl])

theorem stepC_endian (st : StC) (l : Str) (st2 : StC) (hs : stepC st l = .ok st2) :
    st2.bLittleEndian = (endianOfLineC l).getD st.bLittleEndian := by
  cases hcl : classifyC l
  all_goals simp only [stepC, hcl] at hs
  case sizesBad => simp at hs
  case dimV v =>
    split at hs
    · simp at hs
    · injection hs with hs; subst hs; simp [endianOfLineC, hcl]
  all_goals (injection hs with hs; subst hs; simp [endianOfLineC, hcl])

theorem stepC_dim_err (st : StC) (l : Str) (e : ParseErr)
    (hP : isDimLineC l = false) (hs : stepC st l = .error e) :
    e ≠ .unsupportedDimension := by
  cases hcl : classifyC l
  all_goals simp only [stepC, hcl] at hs
  case dimV v => exfalso; simp [isDimLineC, hcl] at hP
  case sizesBad =>
    injection hs with hs
    subst hs
    simp
  all_goals simp at hs

/-! Inversion of the post-loop validations. -/

theorem finishA_ok_inv (st h : FVMNRRDHeaderInfo) (hf : finishA st = .ok h) :
    h = st ∧ 0 < st.SizeX ∧ 0 < st.SizeY ∧ 0 < st.SizeZ ∧
    st.DataFileName.isEmpty = false ∧ st.TypeStr.isEmpty = false ∧
    st.Encoding.isEmpty = false := by
  simp only [finishA] at hf
  split at hf
  · simp at hf
  split at hf
  · simp at hf
  split at hf
  · simp at hf
  split at hf
  · simp at hf
  rename_i hsz hdf ht he
  injection hf with hf
  refine ⟨hf.symm, by omega, by omega, by omega, ?_, ?_, ?_⟩
  · simpa using hdf
  · simpa using ht
  · simpa using he

theorem finishB_ok_inv (st : StB) (h : FVMNRRDHeaderInfo) (w : Bool)
    (hf : finishB st = .ok (h, w)) :
    st.Dim = 3 ∧ 0 < st.s0 ∧ 0 < st.s1 ∧ 0 < st.s2 ∧
    h.SizeX = st.s2 ∧ h.SizeY = st.s1 ∧ h.SizeZ = st.s0 ∧
    h.TypeStr = st.TypeStr ∧ h.Endian = st.Endian ∧ h.DataFileName = st.DataFileName ∧
    w = !(eqCI st.TypeStr ("short".data)) := by
  simp only [finishB] at hf
  split at hf
  · simp at hf
  split at hf
  · simp at hf
  split at hf
  · simp at hf
  split at hf
  · simp at hf
  split at hf
  · simp at hf
  rename_i hdim hsz henc hend hdf
  injection hf with hf
  rw [Prod.mk.injEq] at hf
  obtain ⟨hh, hw⟩ := hf
  subst hh
  refine ⟨by omega, by omega, by omega, by omega, rfl, rfl, rfl, rfl, rfl, rfl, hw.symm⟩

theorem finishC_ok_inv (st : StC) (h : FVMNRRDHeader) (w : Bool)
    (hf : finishC st = .ok (h, w)) :
    0 < st.s0 ∧ 0 < st.s1 ∧ 0 < st.s2 ∧
    h.SizeX = st.s2 ∧ h.SizeY = st.s1 ∧ h.SizeZ = st.s0 ∧
    h.bLittleEndian = st.bLittleEndian ∧ h.RawFilePath = st.DataFileRel ∧
    h.BytesPerVoxel = 2 ∧ w = st.warnType := by
  simp only [finishC] at hf
  split at hf
  · simp at hf
  split at hf
  · simp at hf
  rename_i hsz hdf
  injection hf with hf
  rw [Prod.mk.injEq] at hf
  obtain ⟨hh, hw⟩ := hf
  subst hh
  refine ⟨by omega, by omega, by omega, rfl, rfl, rfl, rfl, rfl, rfl, hw.symm⟩

theorem finishC_err_kinds (st : StC) (e : ParseErr) (hf : finishC st = .error e) :
    e = .invalidSizes ∨ e = .missingDataFile := by
  simp only [finishC] at hf
  split at hf
  · injection hf with hf
    exact Or.inl hf.symm
  split at hf
  · injection hf with hf
    exact Or.inr hf.symm
  · simp at hf

/-! Decomposition of a successful parse into loop and post-loop stages. -/

theorem ParseNRRDHeaderA_ok_decomp (lines : List Str) (h0 : FVMNRRDHeaderInfo)
    (h : ParseNRRDHeaderA lines = .ok h0) :
    ∃ st, foldE stepA initA (bodyA lines) = .ok st ∧ finishA st = .ok h0 := by
  cases hc : culledA lines with
  | nil => simp [ParseNRRDHeaderA, hc] at h
  | cons first rest =>
    have hbody : bodyA lines = rest := by simp [bodyA, hc]
    simp only [ParseNRRDHeaderA, hc] at h
    rw [hbody]
    split at h
    · cases hf : foldE stepA initA rest with
      | error e => rw [hf] at h; simp at h
      | ok st => rw [hf] at h; exact ⟨st, rfl, h⟩
    · simp at h

theorem ParseNRRDHeaderB_ok_decomp (lines : List Str) (r : FVMNRRDHeaderInfo × Bool)
    (h : ParseNRRDHeaderB lines = .ok r) :
    ∃ st, foldE stepB initB lines = .ok st ∧ finishB st = .ok r := by
  cases lines with
  | nil => simp [ParseNRRDHeaderB] at h
  | cons l0 t =>
    simp only [ParseNRRDHeaderB] at h
    split at h
    · cases hf : foldE stepB initB (l0 :: t) with
      | error e => rw [hf] at h; simp at h
      | ok st => rw [hf] at h; exact ⟨st, rfl, h⟩
    · simp at h

theorem ParseNRRDHeaderC_ok_decomp (lines : List Str) (r : FVMNRRDHeader × Bool)
    (h : ParseNRRDHeaderC lines = .ok r) :
    ∃ st, foldE stepC initC lines = .ok st ∧ finishC st = .ok r := by
  cases lines with
  | nil => simp [ParseNRRDHeaderC] at h
  | cons l0 t =>
    simp only [ParseNRRDHeaderC] at h
    split at h
    · cases hf : foldE stepC initC (l0 :: t) with
      | error e => rw [hf] at h; simp at h
      | ok st => rw [hf] at h; exact ⟨st, rfl, h⟩
    · simp at h

/-! Discriminator bridging lemmas. -/

theorem typeOfLineA_eq_none (a : Str) (h : isTypeLineA a = false) : typeOfLineA a = none := by
  cases hcl : classifyA a
  case typeV v => exfalso; simp [isTypeLineA, hcl] at h
  all_goals simp [typeOfLineA, hcl]

theorem encodingOfLineA_eq_none (a : Str) (h : isEncodingLineA a = false) :
    encodingOfLineA a = none := by
  cases hcl : classifyA a
  case encodingV v => exfalso; simp [isEncodingLineA, hcl] at h
  all_goals simp [encodingOfLineA, hcl]

theorem dimOfLineB_eq_none (a : Str) (h : isDimLineB a = false) : dimOfLineB a = none := by
  cases hcl : classifyB a
  case dimV v => exfalso; simp [isDimLineB, hcl] at h
  all_goals simp [dimOfLineB, hcl]

theorem endianOfLineC_eq_none (a : Str) (h : isEndianLineC a = false) :
    endianOfLineC a = none := by
  cases hcl : classifyC a
  case endianV v => exfalso; simp [isEndianLineC, hcl] at h
  all_goals simp [endianOfLineC, hcl]

theorem mem_of_mem_bodyA (lines : List Str) (a : Str) (h : a ∈ bodyA lines) : a ∈ lines := by
  have h1 : a ∈ culledA lines := List.drop_subset 1 (culledA lines) h
  exact List.filter_subset' lines h1

/-- Claim C2: for every header text parsed successfully by any of the three
variants, if the effective sizes line carries the three integers t0 t1 t2 (in
file order, read by the variant's own tokenizer), then the returned header has
SizeX = t2, SizeY = t1, SizeZ = t0: the third, second and first tokens
respectively. -/
theorem c2_axis_reversal :
    (∀ (lines : List Str) (h : FVMNRRDHeaderInfo) (t0 t1 t2 : Int),
      ParseNRRDHeaderA lines = .ok h →
      lastSome sizesOfLineA (bodyA lines) = some (t0, t1, t2) →
      0 < t0 → 0 < t1 → 0 < t2 →
      h.SizeX = t2 ∧ h.SizeY = t1 ∧ h.SizeZ = t0) ∧
    (∀ (lines : List Str) (h : FVMNRRDHeaderInfo) (w : Bool) (t0 t1 t2 : Int),
      ParseNRRDHeaderB lines = .ok (h, w) →
      lastSome sizesOfLineB lines = some (t0, t1, t2) →
      0 < t0 → 0 < t1 → 0 < t2 →
      h.SizeX = t2 ∧ h.SizeY = t1 ∧ h.SizeZ = t0) ∧
    (∀ (lines : List Str) (h : FVMNRRDHeader) (w : Bool) (t0 t1 t2 : Int),
      ParseNRRDHeaderC lines = .ok (h, w) →
      lastSome sizesOfLineC lines = some (t0, t1, t2) →
      0 < t0 → 0 < t1 → 0 < t2 →
      h.SizeX = t2 ∧ h.SizeY = t1 ∧ h.SizeZ = t0) := by
  refine ⟨?_, ?_, ?_⟩
  · intro lines h t0 t1 t2 hp hl _ _ _
    obtain ⟨st, hfold, hfin⟩ := ParseNRRDHeaderA_ok_decomp lines h hp
    have hs := foldE_lastSome stepA (fun st => (st.SizeZ, st.SizeY, st.SizeX))
      sizesOfLineA stepA_sizes (bodyA lines) initA st hfold
    rw [hl] at hs
    simp only [Option.getD_some] at hs
    rw [Prod.mk.injEq, Prod.mk.injEq] at hs
    obtain ⟨hz, hy, hx⟩ := hs
    obtain ⟨hinv, -⟩ := finishA_ok_inv st h hfin
    subst hinv
    exact ⟨hx, hy, hz⟩
  · intro lines h w t0 t1 t2 hp hl _ _ _
    obtain ⟨st, hfold, hfin⟩ := ParseNRRDHeaderB_ok_decomp lines (h, w) hp
    have hs := foldE_lastSome stepB (fun st => (st.s0, st.s1, st.s2))
      sizesOfLineB stepB_sizes lines initB st hfold
    rw [hl] at hs
    simp only [Option.getD_some] at hs
    rw [Prod.mk.injEq, Prod.mk.injEq] at hs
    obtain ⟨h0, h1, h2⟩ := hs
    obtain ⟨-, -, -, -, hX, hY, hZ, -⟩ := finishB_ok_inv st h w hfin
    rw [hX, hY, hZ, h0, h1, h2]
    exact ⟨rfl, rfl, rfl⟩
  · intro lines h w t0 t1 t2 hp hl _ _ _
    obtain ⟨st, hfold, hfin⟩ := ParseNRRDHeaderC_ok_decomp lines (h, w) hp
    have hs := foldE_lastSome stepC (fun st => (st.s0, st.s1, st.s2))
      sizesOfLineC stepC_sizes lines initC st hfold
    rw [hl] at hs
    simp only [Option.getD_some] at hs
    rw [Prod.mk.injEq, Prod.mk.injEq] at hs
    obtain ⟨h0, h1, h2⟩ := hs
    obtain ⟨-, -, -, hX, hY, hZ, -⟩ := finishC_ok_inv st h w hfin
    rw [hX, hY, hZ, h0, h1, h2]
    exact ⟨rfl, rfl, rfl⟩

/-- Claim C2 witness: on a header with `sizes: 4 5 6` every variant returns
SizeX = 6, SizeY = 5, SizeZ = 4. -/
theorem c2_witness :
    c2HdrA.SizeX = 6 ∧ c2HdrA.SizeY = 5 ∧ c2HdrA.SizeZ = 4 ∧
    c2HdrB.SizeX = 6 ∧ c2HdrB.SizeY = 5 ∧ c2HdrB.SizeZ = 4 ∧
    c2HdrC.SizeX = 6 ∧ c2HdrC.SizeY = 5 ∧ c2HdrC.SizeZ = 4 := by
  obtain ⟨a1, a2, a3⟩ := c2_axis_reversal.1 c2Lines c2HdrA 4 5 6 rfl rfl
    (by decide) (by decide) (by decide)
  obtain ⟨b1, b2, b3⟩ := c2_axis_reversal.2.1 c2Lines c2HdrB false 4 5 6 rfl rfl
    (by decide) (by decide) (by decide)
  obtain ⟨c1, c2, c3⟩ := c2_axis_reversal.2.2 c2Lines c2HdrC false 4 5 6 rfl rfl
    (by decide) (by decide) (by decide)
  exact ⟨a1, a2, a3, b1, b2, b3, c1, c2, c3⟩

/-- Claim C10: in the first decoder variant, a header text containing no
`type` line, or containing no `encoding` line, never parses successfully:
the post-loop check on the empty stored field is fatal. -/
theorem c10_missing_type_or_encoding :
    ∀ lines : List Str,
      ((∀ l ∈ lines, isTypeLineA l = false) ∨ (∀ l ∈ lines, isEncodingLineA l = false)) →
      isOkE (ParseNRRDHeaderA lines) = false := by
  intro lines hno
  cases hok : ParseNRRDHeaderA lines with
  | error e => rfl
  | ok h =>
    exfalso
    obtain ⟨st, hfold, hfin⟩ := ParseNRRDHeaderA_ok_decomp lines h hok
    obtain ⟨-, -, -, -, -, htne, hene⟩ := finishA_ok_inv st h hfin
    rcases hno with hno | hno
    · have hs := foldE_lastSome stepA (fun st => st.TypeStr) typeOfLineA stepA_type
        (bodyA lines) initA st hfold
      have hnone : lastSome typeOfLineA (bodyA lines) = none :=
        lastSome_eq_none _ _ (fun a ha =>
          typeOfLineA_eq_none a (hno a (mem_of_mem_bodyA lines a ha)))
      rw [hnone] at hs
      simp only [Option.getD_none] at hs
      rw [hs] at htne
      simp [initA] at htne
    · have hs := foldE_lastSome stepA (fun st => st.Encoding) encodingOfLineA stepA_encoding
        (bodyA lines) initA st hfold
      have hnone : lastSome encodingOfLineA (bodyA lines) = none :=
        lastSome_eq_none _ _ (fun a ha =>
          encodingOfLineA_eq_none a (hno a (mem_of_mem_bodyA lines a ha)))
      rw [hnone] at hs
      simp only [Option.getD_none] at hs
      rw [hs] at hene
      simp [initA] at hene

/-- Claim C10 witness: the concrete header text with magic, dimension, sizes,
encoding and data file lines but no type line is rejected by variant A. -/
theorem c10_witness : isOkE (ParseNRRDHeaderA c10Lines) = false :=
  c10_missing_type_or_encoding c10Lines (Or.inl (by decide))

/-- Claim C5 counterexample: a header whose sizes line has four tokens
(`sizes: 2 2 2 2`), all other fields valid, is parsed successfully by the
second variant (the first three tokens are used, the fourth is ignored),
contradicting that parse always fails with InvalidSizes on a token count
different from 3. -/
theorem c5_counterexample : ParseNRRDHeaderB c5Lines = .ok (c5HdrB, false) := rfl

/-- Claim C5 as amended: a sizes line must have exactly 3 accepted tokens in
the first and part_000 variants, and at least 3 tokens in the second variant,
for parsing to possibly succeed; when no line of the text yields an accepted
sizes triple, the stored sizes stay 0 and every variant fails (during the
loop or at the positivity check); any successful variant-B parse has strictly
positive sizes.  Token acceptance is not integer-strict anywhere: variant A
gates tokens on `FCString::IsNumeric`, which admits one decimal point, so
`sizes: 2.5 3 4` parses successfully there with the first token read as 2,
and the Atoi-based variants read any numeric prefix. -/
theorem c5_amended :
    (∀ lines : List Str, (∀ l ∈ lines, sizesOfLineA l = none) →
      isOkE (ParseNRRDHeaderA lines) = false) ∧
    (∀ lines : List Str, (∀ l ∈ lines, sizesOfLineB l = none) →
      isOkE (ParseNRRDHeaderB lines) = false) ∧
    (∀ lines : List Str, (∀ l ∈ lines, sizesOfLineC l = none) →
      isOkE (ParseNRRDHeaderC lines) = false) ∧
    (∀ (lines : List Str) (h : FVMNRRDHeaderInfo) (w : Bool),
      ParseNRRDHeaderB lines = .ok (h, w) → 0 < h.SizeX ∧ 0 < h.SizeY ∧ 0 < h.SizeZ) ∧
    ParseNRRDHeaderA c5DotLines = .ok c5DotHdrA := by
  refine ⟨?_, ?_, ?_, ?_, rfl⟩
  · intro lines hno
    cases hok : ParseNRRDHeaderA lines with
    | error e => rfl
    | ok h =>
      exfalso
      obtain ⟨st, hfold, hfin⟩ := ParseNRRDHeaderA_ok_decomp lines h hok
      obtain ⟨-, hx, -, -⟩ := finishA_ok_inv st h hfin
      have hs := foldE_lastSome stepA (fun st => (st.SizeZ, st.SizeY, st.SizeX))
        sizesOfLineA stepA_sizes (bodyA lines) initA st hfold
      have hnone : lastSome sizesOfLineA (bodyA lines) = none :=
        lastSome_eq_none _ _ (fun a ha => hno a (mem_of_mem_bodyA lines a ha))
      rw [hnone] at hs
      simp only [Option.getD_none] at hs
      rw [Prod.mk.injEq, Prod.mk.injEq] at hs
      obtain ⟨-, -, hX⟩ := hs
      rw [hX] at hx
      simp [initA] at hx
  · intro lines hno
    cases hok : ParseNRRDHeaderB lines with
    | error e => rfl
    | ok r =>
      exfalso
      obtain ⟨h, w⟩ := r
      obtain ⟨st, hfold, hfin⟩ := ParseNRRDHeaderB_ok_decomp lines (h, w) hok
      obtain ⟨-, h0, -, -⟩ := finishB_ok_inv st h w hfin
      have hs := foldE_lastSome stepB (fun st => (st.s0, st.s1, st.s2))
        sizesOfLineB stepB_sizes lines initB st hfold
      have hnone : lastSome sizesOfLineB lines = none :=
        lastSome_eq_none _ _ (fun a ha => hno a ha)
      rw [hnone] at hs
      simp only [Option.getD_none] at hs
      rw [Prod.mk.injEq, Prod.mk.injEq] at hs
      obtain ⟨hb0, -, -⟩ := hs
      rw [hb0] at h0
      simp [initB] at h0
  · intro lines hno
    cases hok : ParseNRRDHeaderC lines with
    | error e => rfl
    | ok r =>
      exfalso
      obtain ⟨h, w⟩ := r
      obtain ⟨st, hfold, hfin⟩ := ParseNRRDHeaderC_ok_decomp lines (h, w) hok
      obtain ⟨h0, -, -⟩ := finishC_ok_inv st h w hfin
      have hs := foldE_lastSome stepC (fun st => (st.s0, st.s1, st.s2))
        sizesOfLineC stepC_sizes lines initC st hfold
      have hnone : lastSome sizesOfLineC lines = none :=
        lastSome_eq_none _ _ (fun a ha => hno a ha)
      rw [hnone] at hs
      simp only [Option.getD_none] at hs
      rw [Prod.mk.injEq, Prod.mk.injEq] at hs
      obtain ⟨hc0, -, -⟩ := hs
      rw [hc0] at h0
      simp [initC] at h0
  · intro lines h w hok
    obtain ⟨st, hfold, hfin⟩ := ParseNRRDHeaderB_ok_decomp lines (h, w) hok
    obtain ⟨-, h0, h1, h2, hX, hY, hZ, -⟩ := finishB_ok_inv st h w hfin
    rw [hX, hY, hZ]
    exact ⟨h2, h1, h0⟩

/-- Claim C5 witness: the two-token header `sizes: 2 2` is rejected by all
three variants, and the successfully parsed four-token header of the
counterexample indeed carries positive sizes. -/
theorem c5_witness :
    isOkE (ParseNRRDHeaderA c5BadLines) = false ∧
    isOkE (ParseNRRDHeaderB c5BadLines) = false ∧
    isOkE (ParseNRRDHeaderC c5BadLines) = false ∧
    (0 < c5HdrB.SizeX ∧ 0 < c5HdrB.SizeY ∧ 0 < c5HdrB.SizeZ) :=
  ⟨c5_amended.1 c5BadLines (by decide), c5_amended.2.1 c5BadLines (by decide),
   c5_amended.2.2.1 c5BadLines (by decide),
   c5_amended.2.2.2.1 c5Lines c5HdrB false rfl⟩

/-- Claim C6 counterexample: on a header text with no `dimension` line and
all other required fields valid, the second variant fails with
UnsupportedDimension (its `Dim` stays 0 and the post-loop check `Dim != 3`
fires), while the part_000 variant parses the very same text successfully. -/
theorem c6_counterexample :
    ParseNRRDHeaderB c6Lines = .error .unsupportedDimension ∧
    ParseNRRDHeaderC c6Lines = .ok (c6HdrC, false) := ⟨rfl, rfl⟩

/-- Claim C6 as amended: only the part_000 variant treats an absent
`dimension` key as satisfied (an unsupported-dimension failure needs an
explicit dimension line); in the second cpp variant the key is effectively
required: with no dimension line the parse can never succeed. -/
theorem c6_amended :
    (∀ lines : List Str, (∀ l ∈ lines, isDimLineC l = false) →
      ParseNRRDHeaderC lines ≠ .error .unsupportedDimension) ∧
    (∀ lines : List Str, (∀ l ∈ lines, isDimLineB l = false) →
      isOkE (ParseNRRDHeaderB lines) = false) := by
  constructor
  · intro lines hnd h
    cases lines with
    | nil => simp [ParseNRRDHeaderC] at h
    | cons l0 t =>
      simp only [ParseNRRDHeaderC] at h
      split at h
      · cases hf : foldE stepC initC (l0 :: t) with
        | error e =>
          rw [hf] at h
          injection h with h
          exact foldE_err_kind stepC isDimLineC .unsupportedDimension stepC_dim_err
            (l0 :: t) hnd initC e hf h
        | ok st =>
          rw [hf] at h
          rcases finishC_err_kinds st _ h with h' | h' <;> simp at h'
      · simp at h
  · intro lines hnd
    cases hok : ParseNRRDHeaderB lines with
    | error e => rfl
    | ok r =>
      exfalso
      obtain ⟨h, w⟩ := r
      obtain ⟨st, hfold, hfin⟩ := ParseNRRDHeaderB_ok_decomp lines (h, w) hok
      obtain ⟨hdim, -⟩ := finishB_ok_inv st h w hfin
      have hs := foldE_lastSome stepB (fun st => st.Dim) dimOfLineB stepB_dim
        lines initB st hfold
      have hnone : lastSome dimOfLineB lines = none :=
        lastSome_eq_none _ _ (fun a ha => dimOfLineB_eq_none a (hnd a ha))
      rw [hnone] at hs
      simp only [Option.getD_none] at hs
      rw [hs] at hdim
      simp [initB] at hdim

/-- Claim C6 witness: on the concrete dimension-free header, the part_000
variant does not fail with UnsupportedDimension while the second variant does
not succeed. -/
theorem c6_witness :
    ParseNRRDHeaderC c6Lines ≠ .error .unsupportedDimension ∧
    isOkE (ParseNRRDHeaderB c6Lines) = false :=
  ⟨c6_amended.1 c6Lines (by decide), c6_amended.2 c6Lines (by decide)⟩

/-! Characterization of the part_000 loader's length reconciliation. -/

theorem reconcile_length (n : Nat) (l : List Nat) :
    (l.take n ++ List.replicate (n - l.length) (0 : Nat)).length = n := by
  simp only [List.length_append, List.length_take, List.length_replicate]
  omega

theorem LoadRaw_reconcile (h : FVMNRRDHeader) (bytes : List Nat)
    (hx : 0 < h.SizeX) (hy : 0 < h.SizeY) (hz : 0 < h.SizeZ)
    (hb : h.BytesPerVoxel = 2) (hlt : h.SizeX * h.SizeY * h.SizeZ * 2 < 2 ^ 31) :
    bufOf (LoadRawDataAndComputeMinMax h (some bytes)) =
      some (bytes.take (h.SizeX * h.SizeY * h.SizeZ * 2).toNat ++
        List.replicate ((h.SizeX * h.SizeY * h.SizeZ * 2).toNat - bytes.length) 0) := by
  have hxyz : 0 < h.SizeX * h.SizeY * h.SizeZ := mul_pos (mul_pos hx hy) hz
  have h2e : 2 ≤ h.SizeX * h.SizeY * h.SizeZ * 2 := by
    have h1 : 1 ≤ h.SizeX * h.SizeY * h.SizeZ := hxyz
    nlinarith
  have hwrap : wrap64 (h.SizeX * h.SizeY * h.SizeZ * 2) = h.SizeX * h.SizeY * h.SizeZ * 2 := by
    unfold wrap64
    have hlt64 : h.SizeX * h.SizeY * h.SizeZ * 2 + 2 ^ 63 < 2 ^ 64 := by
      have : (2 : Int) ^ 31 + 2 ^ 63 ≤ 2 ^ 64 := by norm_num
      omega
    have hge : (0 : Int) ≤ h.SizeX * h.SizeY * h.SizeZ * 2 + 2 ^ 63 := by
      have : (0 : Int) ≤ 2 ^ 63 := by norm_num
      omega
    rw [Int.emod_eq_of_lt hge hlt64]
    ring
  have h2n : 2 ≤ (h.SizeX * h.SizeY * h.SizeZ * 2).toNat := by omega
  simp only [LoadRawDataAndComputeMinMax, hb, hwrap]
  set e : Int := h.SizeX * h.SizeY * h.SizeZ * 2 with hedef
  by_cases hlt1 : (bytes.length : Int) < e
  · have hlen : bytes.length ≤ e.toNat := by omega
    rw [if_pos hlt1]
    have htake : bytes.take e.toNat = bytes := List.take_of_length_le hlen
    have hbuf : (bytes ++ List.replicate (e.toNat - bytes.length) 0).length = e.toNat := by
      simp only [List.length_append, List.length_replicate]
      omega
    rw [if_neg (by omega)]
    cases hsmp : samplesOfInt16 (bytes ++ List.replicate (e.toNat - bytes.length) 0) with
    | nil =>
      exfalso
      have := (samplesOfInt16_eq_nil_iff _).mp hsmp
      omega
    | cons s rest =>
      rw [htake]
      rfl
  · rw [if_neg hlt1]
    by_cases hgt1 : (bytes.length : Int) > e
    · have hlen : e.toNat ≤ bytes.length := by omega
      rw [if_pos hgt1]
      have hrep : (e.toNat - bytes.length) = 0 := by omega
      have hbuf : (bytes.take e.toNat).length = e.toNat := by
        simp only [List.length_take]
        omega
      rw [if_neg (by omega)]
      cases hsmp : samplesOfInt16 (bytes.take e.toNat) with
      | nil =>
        exfalso
        have := (samplesOfInt16_eq_nil_iff _).mp hsmp
        omega
      | cons s rest =>
        rw [hrep]
        simp only [List.replicate_zero, List.append_nil]
        rfl
    · have heq : (bytes.length : Int) = e := by omega
      have hlen : bytes.length = e.toNat := by omega
      rw [if_neg hgt1]
      have htake : bytes.take e.toNat = bytes := List.take_of_length_le (by omega)
      have hrep : (e.toNat - bytes.length) = 0 := by omega
      rw [if_neg (by omega)]
      cases hsmp : samplesOfInt16 bytes with
      | nil =>
        exfalso
        have := (samplesOfInt16_eq_nil_iff _).mp hsmp
        omega
      | cons s rest =>
        rw [htake, hrep]
        simp only [List.replicate_zero, List.append_nil]
        rfl

/-- Claim C1 counterexample: the cpp variant's `LoadRawData` computes the
expected length (`1*1*1*2 = 2` here) but returns the raw file's bytes at
their actual length: a 3-byte file is returned as 3 bytes, not reconciled to
the expected 2. -/
theorem c1_counterexample :
    LoadRawDataA c1HdrA (some [1, 2, 3]) = .ok [1, 2, 3] ∧
    wrap64 (c1HdrA.SizeX * c1HdrA.SizeY * c1HdrA.SizeZ * 2) = 2 ∧
    (([1, 2, 3] : List Nat).length : Int) ≠ 2 := ⟨rfl, by decide, by decide⟩

/-- Claim C1 as amended: the part_000 loader `LoadRawDataAndComputeMinMax`
computes the expected length `SizeX * SizeY * SizeZ * 2` in 64-bit arithmetic
and returns a buffer of exactly that length — the file's bytes zero-padded at
the tail when shorter, truncated when longer, unchanged when exact — and
never fails for a length mismatch; the cpp variants' `LoadRawData` computes
the same expected length but only to log a warning: it succeeds returning the
bytes at their actual length (reconciliation happens later, when copying into
the texture). -/
theorem c1_amended :
    (∀ (h : FVMNRRDHeader) (bytes : List Nat),
      0 < h.SizeX → 0 < h.SizeY → 0 < h.SizeZ → h.BytesPerVoxel = 2 →
      h.SizeX * h.SizeY * h.SizeZ * 2 < 2 ^ 31 →
      bufOf (LoadRawDataAndComputeMinMax h (some bytes)) =
        some (bytes.take (h.SizeX * h.SizeY * h.SizeZ * 2).toNat ++
          List.replicate ((h.SizeX * h.SizeY * h.SizeZ * 2).toNat - bytes.length) 0) ∧
      (bytes.take (h.SizeX * h.SizeY * h.SizeZ * 2).toNat ++
        List.replicate ((h.SizeX * h.SizeY * h.SizeZ * 2).toNat - bytes.length) 0).length =
        (h.SizeX * h.SizeY * h.SizeZ * 2).toNat) ∧
    (∀ (hdr : FVMNRRDHeaderInfo) (bytes : List Nat),
      eqCI hdr.Encoding ("raw".data) = true →
      (eqCI hdr.TypeStr ("short".data) = true ∨ eqCI hdr.TypeStr ("int16".data) = true) →
      LoadRawDataA hdr (some bytes) = .ok bytes) := by
  constructor
  · intro h bytes hx hy hz hb hlt
    exact ⟨LoadRaw_reconcile h bytes hx hy hz hb hlt, reconcile_length _ _⟩
  · intro hdr bytes henc htype
    rcases htype with ht | ht <;> simp [LoadRawDataA, henc, ht]

/-- Claim C1 witness: a 1-byte file against a header expecting 4 bytes yields
the padded buffer `[5, 0, 0, 0]` from the part_000 loader, while the cpp
variant's loader returns a 3-byte file unchanged against a 2-byte
expectation. -/
theorem c1_witness :
    bufOf (LoadRawDataAndComputeMinMax c1Hdr (some [5])) = some [5, 0, 0, 0] ∧
    LoadRawDataA c1HdrA (some [9, 9, 9]) = .ok [9, 9, 9] := by
  constructor
  · have h := (c1_amended.1 c1Hdr [5] (by decide) (by decide) (by decide) (by decide)
      (by decide)).1
    exact h.trans (by decide)
  · exact c1_amended.2 c1HdrA [9, 9, 9] (by decide) (Or.inl (by decide))

/-- Claim C3 counterexample: a header declaring `endian: big`, all other
fields valid, is a fatal UnsupportedEndian error in the second cpp variant —
a big-endian declaration is not always non-fatal. -/
theorem c3_counterexample : ParseNRRDHeaderB c3BigLines = .error .unsupportedEndian := rfl

/-- Claim C3 as amended: endianness defaults to little when the `endian`
field is absent; in the part_000 variant a big declaration is non-fatal and
merely clears `bLittleEndian`, and no byte swap is ever applied — the loader
returns the file's bytes unchanged apart from length reconciliation,
whatever the header's endianness; in the second cpp variant any endian value
other than little is a fatal error. -/
theorem c3_amended :
    (∀ (lines : List Str) (h : FVMNRRDHeader) (w : Bool),
      (∀ l ∈ lines, isEndianLineC l = false) →
      ParseNRRDHeaderC lines = .ok (h, w) → h.bLittleEndian = true) ∧
    (ParseNRRDHeaderC c3BigLines = .ok (c3BigHdr, false) ∧ c3BigHdr.bLittleEndian = false) ∧
    (∀ (h : FVMNRRDHeader) (bytes : List Nat),
      0 < h.SizeX → 0 < h.SizeY → 0 < h.SizeZ → h.BytesPerVoxel = 2 →
      h.SizeX * h.SizeY * h.SizeZ * 2 < 2 ^ 31 →
      bufOf (LoadRawDataAndComputeMinMax h (some bytes)) =
        some (bytes.take (h.SizeX * h.SizeY * h.SizeZ * 2).toNat ++
          List.replicate ((h.SizeX * h.SizeY * h.SizeZ * 2).toNat - bytes.length) 0)) := by
  refine ⟨?_, ⟨rfl, rfl⟩, ?_⟩
  · intro lines h w hne hok
    obtain ⟨st, hfold, hfin⟩ := ParseNRRDHeaderC_ok_decomp lines (h, w) hok
    obtain ⟨-, -, -, -, -, -, hend, -⟩ := finishC_ok_inv st h w hfin
    have hs := foldE_lastSome stepC (fun st => st.bLittleEndian) endianOfLineC stepC_endian
      lines initC st hfold
    have hnone : lastSome endianOfLineC lines = none :=
      lastSome_eq_none _ _ (fun a ha => endianOfLineC_eq_none a (hne a ha))
    rw [hnone] at hs
    simp only [Option.getD_none] at hs
    rw [hend, hs]
    rfl
  · intro h bytes hx hy hz hb hlt
    exact LoadRaw_reconcile h bytes hx hy hz hb hlt

/-- Claim C3 witness: with no endian line the part_000 variant returns a
little-endian header, and the loader hands back a big-endian-declared
volume's bytes unswapped (the two file bytes stay in file order, followed by
zero padding). -/
theorem c3_witness :
    c3NoEndHdr.bLittleEndian = true ∧
    bufOf (LoadRawDataAndComputeMinMax c3BigHdr (some [1, 2])) =
      some [1, 2, 0, 0, 0, 0, 0, 0, 0, 0, 0, 0, 0, 0, 0, 0] := by
  constructor
  · exact c3_amended.1 c3NoEndLines c3NoEndHdr false (by decide) rfl
  · have h := c3_amended.2.2 c3BigHdr [1, 2] (by decide) (by decide) (by decide) (by decide)
      (by decide)
    exact h.trans (by decide)

/-- Claim C4 counterexample: a header declaring `type: float`, otherwise
valid, parses fine in the first cpp variant but its `LoadRawData` then fails
fatally — a type mismatch is not always non-fatal. -/
theorem c4_counterexample :
    ParseNRRDHeaderA c4Lines = .ok c4HdrA ∧
    LoadRawDataA c4HdrA (some [0, 0]) = .error .unsupportedType := ⟨rfl, rfl⟩

/-- Claim C4 as amended: in the second cpp variant and the part_000 variant a
declared type other than short is accepted with only a non-fatal warning and
decoding proceeds assuming 16-bit samples, but in the first cpp variant
`LoadRawData` fails fatally for every type other than short/int16. -/
theorem c4_amended :
    (∀ (hdr : FVMNRRDHeaderInfo) (rawFile : Option (List Nat)),
      eqCI hdr.TypeStr ("short".data) = false →
      eqCI hdr.TypeStr ("int16".data) = false →
      eqCI hdr.Encoding ("raw".data) = true →
      LoadRawDataA hdr rawFile = .error .unsupportedType) ∧
    ParseNRRDHeaderB c4Lines = .ok (c4HdrB, true) ∧
    ParseNRRDHeaderC c4Lines = .ok (c4HdrC, true) := by
  refine ⟨?_, rfl, rfl⟩
  intro hdr rawFile hts hti henc
  simp [LoadRawDataA, henc, hts, hti]

/-- Claim C4 witness: the general variant-A failure instantiated at a header
declaring `type: uint8`. -/
theorem c4_witness : LoadRawDataA c4uHdr (some []) = .error .unsupportedType :=
  c4_amended.1 c4uHdr (some []) (by decide) (by decide) (by decide)
